import Mathlib

/-!
Verification of the Gallery Size Organizer (`src/gso.py`).

Shallow embedding of the record data model, the sort by modification date,
the capacity-driven classification loop of `split_gallery`, the folder
naming, the statistics accumulation, and the checkpoint handling of
`files_to_gallery_files`.
-/

/-- Model of a Python `datetime` value: `ts` is the POSIX timestamp, which
determines the chronological order used by `sort` and by comparisons, and
`day`, `month`, `year` are the calendar fields read by `strftime`. -/
structure PyDateTime where
  ts : Int
  day : Nat
  month : Nat
  year : Nat
deriving DecidableEq

instance : Inhabited PyDateTime := ⟨⟨0, 0, 0, 0⟩⟩

/-- Model of one gallery-file record, the dict built in
`files_to_gallery_files`:
`{"file": file, "size": get_filesize(file), "date": get_mtime(file)}`. -/
structure GalleryFile where
  file : String
  size : Nat
  date : PyDateTime
deriving DecidableEq

instance : Inhabited GalleryFile := ⟨⟨"", 0, default⟩⟩

/-- Constant `SUBFOLDER_MAX_SIZE_GB = 15` of gso.py (line 27). -/
def SUBFOLDER_MAX_SIZE_GB : Nat := 15

/-- Constant `GSO_FOLDER` of gso.py (line 28). -/
def GSO_FOLDER : String := "/storage/0/emulated/GSO Backups"

/-- Value `max_size = SUBFOLDER_MAX_SIZE_GB*1024**3` computed at line 100 of
`split_gallery`, in bytes. -/
def max_size : Nat := SUBFOLDER_MAX_SIZE_GB * 1024 ^ 3

/-- One binary gibibyte, used to write concrete scenario sizes. -/
def GiB : Nat := 1024 ^ 3

/-- Two-digit zero padding, as `strftime` performs for `%d` and `%m`. -/
def pad2 (n : Nat) : String := if n < 10 then "0" ++ toString n else toString n

/-- Model of `format_date` (lines 57-61): `date.strftime("%d.%m.%Y")`; for the
four-digit years the script handles, `%Y` prints the year as is. -/
def format_date (d : PyDateTime) : String :=
  pad2 d.day ++ "." ++ pad2 d.month ++ "." ++ toString d.year

/-- Ordering on records used by `gallery_files.sort(key=lambda f: f["date"])`
(line 96): the sort key is the modification datetime, compared
chronologically. -/
def dateLe (a b : GalleryFile) : Prop := a.date.ts ≤ b.date.ts

instance : DecidableRel dateLe :=
  fun a b => inferInstanceAs (Decidable (a.date.ts ≤ b.date.ts))

instance : IsTotal GalleryFile dateLe := ⟨fun a b => Int.le_total a.date.ts b.date.ts⟩

instance : IsTrans GalleryFile dateLe := ⟨fun _ _ _ h h2 => le_trans h h2⟩

/-- Contents of the list after `gallery_files.sort(key=lambda f: f["date"])`
(line 96). Python `list.sort` is a stable sort by the key; any two stable
sorts under the same total preorder produce the same list, so insertion sort
under `dateLe` gives the exact resulting contents. The sort works in place:
`split_gallery` exposes this list as the caller-visible final state of its
argument. -/
def sortGallery (l : List GalleryFile) : List GalleryFile := List.insertionSort dateLe l

/-- Python list indexing `l[k]`: non-negative indices count from the front,
negative ones from the back (`l[-1]` is the last element). Out-of-range
indices raise IndexError in Python; the embedding returns a default record
there — the loops of `split_gallery` only ever index in range. -/
def pyGet (l : List GalleryFile) (k : Int) : GalleryFile :=
  if k < 0 then l.getD (l.length - (-k).toNat) default else l.getD k.toNat default

/-- Python `range(a, b)` over ints, as the list `[a, a+1, ..., b-1]`. -/
def pyRange (a b : Int) : List Int :=
  (List.range (b - a).toNat).map (fun n => a + Int.ofNat n)

/-- Size in bytes of the record at Python index `k`. -/
def sizeAt (l : List GalleryFile) (k : Int) : Nat := (pyGet l k).size

/-- Cumulative byte size of the records at indices `a..b` inclusive — the
`total_size` accumulated by the copy loop `for k in range(i, j+1)` of lines
122-125. Empty (zero) when `a > b`. -/
def rangeSize (l : List GalleryFile) (a b : Int) : Nat :=
  ((pyRange a (b + 1)).map (sizeAt l)).sum

/-- Number of files the copy loop visits for an index range `a..b`. -/
def rangeCount (a b : Int) : Nat := (pyRange a (b + 1)).length

/-- One entry of the `subfolders` list of `split_gallery`: the source mixes
plain ints (the start index of the still-open range) and pairs (closed
ranges) in a single list. -/
inductive SubfolderItem where
  | idx : Int → SubfolderItem
  | range : Int → Int → SubfolderItem
deriving DecidableEq

/-- One iteration of the classification loop (lines 102-109):

    total_size += file["size"]
    if total_size > max_size:
        j = subfolders.pop()
        subfolders.append((j, i-1))
        subfolders.append(i)
        total_size = file["size"]
    i += 1

`subfolders.pop()` removes and returns the last element. That element is
always the plain start index of the open range — the list starts as `[0]`
and every overflow re-appends a plain index last — and the source uses it as
the first component of the closed pair, so the overflow branch is written
over that shape (the fallback arm is never reached). The state is
`(subfolders, total_size, i)`; `i` is only ever incremented from 0, so it
stays a natural number, while `i - 1` in the appended pair can be `-1` when
the overflow fires at `i = 0`. -/
def splitStep (cap : Nat) (st : List SubfolderItem × Nat × Nat) (f : GalleryFile) :
    List SubfolderItem × Nat × Nat :=
  match st with
  | (subfolders, total₀, i) =>
    let total := total₀ + f.size
    if total > cap then
      match subfolders.getLast? with
      | some (SubfolderItem.idx j) =>
          (subfolders.dropLast ++
             [SubfolderItem.range j ((i : Int) - 1), SubfolderItem.idx (i : Int)],
           f.size, i + 1)
      | _ => (subfolders, f.size, i + 1)
    else (subfolders, total, i + 1)

/-- Classification loop of `split_gallery` over the whole (sorted) record
list, from the initial state `subfolders = [0]`, `total_size = 0`, `i = 0`
(lines 99-109). -/
def splitLoop (cap : Nat) (l : List GalleryFile) : List SubfolderItem × Nat × Nat :=
  l.foldl (splitStep cap) ([SubfolderItem.idx 0], 0, 0)

/-- Ranges the copy loop of lines 117-128 actually processes: it walks
`subfolders` in order and executes `break` at the first entry that is a
plain int (`if type(subfolder) == type(1): break`), so only the leading
prefix of closed pairs is kept — the trailing open range is dropped. -/
def closedRanges : List SubfolderItem → List (Int × Int)
  | [] => []
  | SubfolderItem.idx _ :: _ => []
  | SubfolderItem.range a b :: rest => (a, b) :: closedRanges rest

/-- Index ranges produced (and processed) by `split_gallery` for a given
input, after the in-place sort. -/
def splitRanges (l : List GalleryFile) : List (Int × Int) :=
  closedRanges (splitLoop max_size (sortGallery l)).1

/-- Boundary-dates part of the subfolder name built at line 121:
`format_date` of the first record, a dash, `format_date` of the last. -/
def range_name (first last : GalleryFile) : String :=
  format_date first.date ++ "-" ++ format_date last.date

/-- Full subfolder path of line 121:
`f"{GSO_FOLDER}/{format_date(gallery_files[i]['date'])}-{format_date(gallery_files[j]['date'])}"`. -/
def subfolderName (l : List GalleryFile) (a b : Int) : String :=
  GSO_FOLDER ++ "/" ++ range_name (pyGet l a) (pyGet l b)

/-- Statistics dict returned by `split_gallery` (lines 136-140). -/
structure SplitStats where
  subfolders_created : List String
  subfolders_size : List Nat
  files_copied : Nat
deriving DecidableEq

/-- Model of `split_gallery` (lines 91-140). The first component of the
result is the contents of the caller's list after the call — `list.sort` at
line 96 reorders the argument in place. The statistics mirror the copy loop:
one subfolder per closed pair, in order; the trailing open range is never
materialised because of the `break` at line 119. The log write of lines
131-133 is filesystem glue outside the embedding. -/
def split_gallery (gallery_files : List GalleryFile) : List GalleryFile × SplitStats :=
  let sorted := sortGallery gallery_files
  let rs := closedRanges (splitLoop max_size sorted).1
  (sorted,
   { subfolders_created := rs.map fun r => subfolderName sorted r.1 r.2,
     subfolders_size := rs.map fun r => rangeSize sorted r.1 r.2,
     files_copied := (rs.map fun r => rangeCount r.1 r.2).sum })

/-- Python exceptions raised by the embedded fragments. -/
inductive PyExc where
  | unsupportedOperation
  | typeError
deriving DecidableEq

/-- Model of a Python file handle: whether it was opened readable, and the
content in front of the read cursor. -/
structure PyHandle where
  readable : Bool
  content : String

/-- Model of `open(LOG_FILE, "w")` (line 79): mode `"w"` truncates the file on
disk and yields a write-only handle. The second component is the on-disk
content right after opening. -/
def openWrite (_prev : String) : PyHandle × String := (⟨false, ""⟩, "")

/-- Model of `file.readline()` (line 80): on a handle opened for writing
only, Python raises `io.UnsupportedOperation: not readable`; otherwise it
returns the content up to the first newline. -/
def readline (h : PyHandle) : Except PyExc String :=
  if h.readable then Except.ok (h.content.takeWhile (fun c => c ≠ '\n'))
  else Except.error PyExc.unsupportedOperation

/-- Model of an OS file as seen by `get_filesize` and `get_mtime`. -/
structure OsFile where
  path : String
  size : Nat
  mtime : PyDateTime

/-- Model of `get_filesize` (lines 32-36): `os.path.getsize(file)`. -/
def get_filesize (f : OsFile) : Nat := f.size

/-- Model of `get_mtime` (lines 39-43): the last-modified datetime. -/
def get_mtime (f : OsFile) : PyDateTime := f.mtime

/-- Model of `files_to_gallery_files` (lines 64-88). After building the
metadata records it executes `with open(LOG_FILE, "w") as file:` followed by
`line = file.readline()`: the log is opened in write mode (truncated) and
then read, and `readline` on the write-only handle raises. Had a non-empty
line been read, the confirmation branch would run
`list(map(gallery_files, lambda file: file["date"] > last_dt))`, which
passes the list where `map` expects the callable — a TypeError.
`logContent` is the on-disk log before the call and `confirm` the user's
answer to the prompt. -/
def files_to_gallery_files (files : List OsFile) (logContent : String) (confirm : Bool) :
    Except PyExc (List GalleryFile) :=
  let gallery_files := files.map fun f =>
    { file := f.path, size := get_filesize f, date := get_mtime f : GalleryFile }
  let h := (openWrite logContent).1
  match readline h with
  | Except.error e => Except.error e
  | Except.ok line =>
      if line ≠ "" then
        if confirm then Except.error PyExc.typeError else Except.ok gallery_files
      else Except.ok gallery_files

/-! Concrete records used by the scenario theorems. -/

/-- A single one-byte record. -/
def oneByte : GalleryFile := ⟨"a.jpg", 1, ⟨1, 1, 1, 2024⟩⟩

/-- A 5 GiB record dated first. -/
def gal5A : GalleryFile := ⟨"a.mp4", 5 * GiB, ⟨1, 1, 1, 2024⟩⟩

/-- A 5 GiB record dated second. -/
def gal5B : GalleryFile := ⟨"b.mp4", 5 * GiB, ⟨2, 2, 1, 2024⟩⟩

/-- A single 20 GiB record (oversized at the 15 GiB threshold). -/
def big20 : GalleryFile := ⟨"huge.mp4", 20 * GiB, ⟨3, 1, 1, 2024⟩⟩

/-- Another single 20 GiB record. -/
def big20b : GalleryFile := ⟨"video.mp4", 20 * GiB, ⟨4, 2, 1, 2024⟩⟩

/-- First record of the `[5,5,5,1]` GiB scenario. -/
def sc5A : GalleryFile := ⟨"p1.mp4", 5 * GiB, ⟨1, 1, 1, 2024⟩⟩

/-- Second record of the `[5,5,5,1]` GiB scenario. -/
def sc5B : GalleryFile := ⟨"p2.mp4", 5 * GiB, ⟨2, 2, 1, 2024⟩⟩

/-- Third record of the `[5,5,5,1]` GiB scenario. -/
def sc5C : GalleryFile := ⟨"p3.mp4", 5 * GiB, ⟨3, 3, 1, 2024⟩⟩

/-- Fourth record of the `[5,5,5,1]` GiB scenario. -/
def sc5D : GalleryFile := ⟨"p4.mp4", 1 * GiB, ⟨4, 4, 1, 2024⟩⟩

/-- Record modified 2024-01-01 for the naming scenario. -/
def nmFirst : GalleryFile := ⟨"n1.jpg", 100, ⟨10, 1, 1, 2024⟩⟩

/-- Record modified 2024-01-10 for the naming scenario. -/
def nmLast : GalleryFile := ⟨"n2.jpg", 200, ⟨20, 10, 1, 2024⟩⟩

/-- Record with the same modification date as `nmFirst` but different path
and size. -/
def nmAltFirst : GalleryFile := ⟨"other.jpg", 999, ⟨10, 1, 1, 2024⟩⟩

/-- Record with the earlier date of the mutation scenario. -/
def mutA : GalleryFile := ⟨"early.jpg", 1, ⟨5, 1, 1, 2024⟩⟩

/-- Record with the later date of the mutation scenario. -/
def mutB : GalleryFile := ⟨"late.jpg", 1, ⟨9, 2, 1, 2024⟩⟩

/-- A 16 GiB record dated first, for the capacity-bound witness. -/
def capA : GalleryFile := ⟨"w1.mp4", 16 * GiB, ⟨1, 1, 1, 2024⟩⟩

/-- A 16 GiB record dated second, for the capacity-bound witness. -/
def capB : GalleryFile := ⟨"w2.mp4", 16 * GiB, ⟨2, 2, 1, 2024⟩⟩

/-- C1: the classification loop never closes the final open range at end of
input, and the copy loop breaks at the first plain int, so for the singleton
input below no range at all is returned: the ranges fail to cover `[0, 1)`
and the record is never processed. -/
theorem final_range_never_closed :
    splitRanges [oneByte] = [] ∧
    (split_gallery [oneByte]).2.files_copied = 0 ∧
    [oneByte].length = 1 := by decide

/-- C2: a non-empty input whose total size fits the capacity yields zero
closed ranges and zero copied files, not the single all-spanning range the
specification states. -/
theorem under_capacity_no_range :
    gal5A.size + gal5B.size ≤ max_size ∧
    splitRanges [gal5A, gal5B] = [] ∧
    (split_gallery [gal5A, gal5B]).2.files_copied = 0 ∧
    (split_gallery [gal5A, gal5B]).2.subfolders_created = [] := by decide

/-- C3: when the very first record overflows the capacity, the loop pops the
start index 0 and appends `(0, -1)`: a returned range whose start exceeds
its end. -/
theorem oversized_first_invalid_range :
    splitRanges [big20] = [((0 : Int), (-1 : Int))] ∧ (0 : Int) > (-1 : Int) := by decide

/-- C4: a single 20 GiB record at the 15 GiB threshold does not become the
range `[0,0]` with 20 GiB of stats: the code emits the empty range `(0,-1)`,
reports 0 bytes for it, and never copies the file. -/
theorem oversized_single_dropped :
    splitRanges [big20b] ≠ [((0 : Int), (0 : Int))] ∧
    (split_gallery [big20b]).2.subfolders_size = [0] ∧
    (split_gallery [big20b]).2.files_copied = 0 ∧
    big20b.size = 20 * GiB := by decide

/-- C5: for sizes `[5,5,5,1]` GiB at 15 GiB capacity the accumulate-then-test
with strict `>` does keep the third record in the first range and close
`[0,2]` at the fourth, but the final range `[3,3]` is never closed or
processed: only `[0,2]` is returned and only 3 files are copied. -/
theorem scenario_5551_missing_last_range :
    splitRanges [sc5A, sc5B, sc5C, sc5D] = [((0 : Int), (2 : Int))] ∧
    (split_gallery [sc5A, sc5B, sc5C, sc5D]).2.files_copied = 3 := by decide

/-- C9: the checkpoint is never read: `open(LOG_FILE, "w")` truncates the log
and returns a write-only handle, so the immediate `readline()` raises
`io.UnsupportedOperation` for every input, before any filtering could
happen. -/
theorem checkpoint_never_read :
    ∀ (files : List OsFile) (logContent : String) (confirm : Bool),
      files_to_gallery_files files logContent confirm =
        Except.error PyExc.unsupportedOperation := by
  intro files logContent confirm
  rfl

/-! Helper lemmas about `pyRange`, `rangeSize` and the loop state shape. -/

/-- Closed pairs rendered as subfolder entries. -/
def itemsOf (rs : List (Int × Int)) : List SubfolderItem :=
  rs.map fun r => SubfolderItem.range r.1 r.2

/-- Capacity discipline of one emitted range: its cumulative size fits the
threshold unless it is a single record that alone exceeds it. -/
def GoodRange (l : List GalleryFile) (cap : Nat) (r : Int × Int) : Prop :=
  rangeSize l r.1 r.2 ≤ cap ∨ (r.1 = r.2 ∧ sizeAt l r.1 > cap)

lemma closedRanges_itemsOf (rs : List (Int × Int)) (s : Int) :
    closedRanges (itemsOf rs ++ [SubfolderItem.idx s]) = rs := by
  induction rs with
  | nil => rfl
  | cons r rs ih =>
      obtain ⟨a, b⟩ := r
      simpa [itemsOf, closedRanges] using ih

lemma pyRange_empty {a b : Int} (h : b ≤ a) : pyRange a b = [] := by
  unfold pyRange
  rw [Int.toNat_of_nonpos (by omega)]
  rfl

lemma pyRange_succ {a b : Int} (h : a ≤ b) : pyRange a (b + 1) = pyRange a b ++ [b] := by
  unfold pyRange
  rw [show (b + 1 - a).toNat = (b - a).toNat + 1 by omega, List.range_succ,
    List.map_append, List.map_singleton]
  congr 2
  rw [show Int.ofNat (b - a).toNat = ((b - a).toNat : Int) from rfl,
    Int.toNat_of_nonneg (by omega)]
  ring

lemma rangeSize_of_empty (l : List GalleryFile) {a b : Int} (h : b < a) :
    rangeSize l a b = 0 := by
  unfold rangeSize
  rw [pyRange_empty (by omega)]
  rfl

lemma rangeSize_last (l : List GalleryFile) {a b : Int} (h : a ≤ b) :
    rangeSize l a b = rangeSize l a (b - 1) + sizeAt l b := by
  unfold rangeSize
  rw [show b - 1 + 1 = b by omega, pyRange_succ h, List.map_append, List.sum_append]
  simp

lemma pyGet_nat (l : List GalleryFile) (n : Nat) : pyGet l (n : Int) = l.getD n default := by
  unfold pyGet
  rw [if_neg (by omega)]
  norm_num

lemma pyGet_drop {l rest : List GalleryFile} {f : GalleryFile} {i : Nat}
    (h : l.drop i = f :: rest) : pyGet l (i : Int) = f := by
  rw [pyGet_nat]
  have h1 : (l.drop i).head? = some f := by rw [h]; rfl
  rw [List.head?_drop] at h1
  simp [List.getD, h1]

lemma splitStep_over (cap : Nat) (rs : List (Int × Int)) (s : Int) (total i : Nat)
    (f : GalleryFile) (h : total + f.size > cap) :
    splitStep cap (itemsOf rs ++ [SubfolderItem.idx s], total, i) f =
      (itemsOf (rs ++ [(s, (i : Int) - 1)]) ++ [SubfolderItem.idx (i : Int)],
       f.size, i + 1) := by
  unfold splitStep
  simp [h, List.getLast?_concat, List.dropLast_concat, itemsOf]

lemma splitStep_under (cap : Nat) (subs : List SubfolderItem) (total i : Nat)
    (f : GalleryFile) (h : ¬ total + f.size > cap) :
    splitStep cap (subs, total, i) f = (subs, total + f.size, i + 1) := by
  unfold splitStep
  simp [h]

/-- Loop invariant of the classification loop: starting from a state whose
`subfolders` list is a block of closed good pairs followed by the open start
index `s`, with `total` the cumulative size of the open range and previous
overflow checks passed (or the open range at most one record long), every
pair the loop has closed when the input is exhausted respects the capacity
discipline. -/
lemma splitLoop_inv (cap : Nat) (l : List GalleryFile) :
    ∀ (rest : List GalleryFile) (rs : List (Int × Int)) (s i total : Nat),
      l.drop i = rest →
      s ≤ i →
      total = rangeSize l (s : Int) ((i : Int) - 1) →
      (total ≤ cap ∨ i ≤ s + 1) →
      (∀ r ∈ rs, GoodRange l cap r) →
      ∀ r ∈ closedRanges
          (rest.foldl (splitStep cap)
            (itemsOf rs ++ [SubfolderItem.idx (s : Int)], total, i)).1,
        GoodRange l cap r := by
  intro rest
  induction rest with
  | nil =>
      intro rs s i total _ _ _ _ hrs
      simpa [closedRanges_itemsOf] using hrs
  | cons f rest ih =>
      intro rs s i total hdrop hsi htot hcap hrs
      have hfi : pyGet l (i : Int) = f := pyGet_drop hdrop
      have hdrop1 : l.drop (i + 1) = rest := by
        rw [← List.drop_drop 1 i l, hdrop]
        rfl
      rw [List.foldl_cons]
      by_cases hover : total + f.size > cap
      · rw [splitStep_over cap rs (s : Int) total i f hover]
        apply ih (rs ++ [((s : Int), (i : Int) - 1)]) i (i + 1) f.size hdrop1
          (Nat.le_succ i)
        · -- new running total is the size of the sole record of the new range
          rw [show ((i + 1 : Nat) : Int) - 1 = (i : Int) by push_cast; ring,
            rangeSize_last l (le_refl (i : Int)),
            rangeSize_of_empty l (by omega), sizeAt, hfi]
          omega
        · exact Or.inr (le_refl (i + 1))
        · -- the freshly closed pair respects the capacity discipline
          intro r hr
          rcases List.mem_append.1 hr with hr | hr
          · exact hrs r hr
          · rcases List.mem_singleton.1 hr with rfl
            by_cases hsi2 : i ≤ s
            · have hse : s = i := le_antisymm hsi hsi2
              subst hse
              refine Or.inl ?_
              show rangeSize l (s : Int) ((s : Int) - 1) ≤ cap
              rw [rangeSize_of_empty l (by omega)]
              exact Nat.zero_le _
            · by_cases hone : i = s + 1
              · subst hone
                by_cases hsz : sizeAt l (s : Int) ≤ cap
                · refine Or.inl ?_
                  show rangeSize l (s : Int) (((s + 1 : Nat) : Int) - 1) ≤ cap
                  rw [show ((s + 1 : Nat) : Int) - 1 = (s : Int) by push_cast; ring,
                    rangeSize_last l (le_refl (s : Int)),
                    rangeSize_of_empty l (by omega)]
                  omega
                · refine Or.inr ⟨?_, ?_⟩
                  · show (s : Int) = ((s + 1 : Nat) : Int) - 1
                    push_cast
                    ring
                  · show sizeAt l (s : Int) > cap
                    omega
              · have hlt : total ≤ cap := by
                  rcases hcap with h | h
                  · exact h
                  · omega
                refine Or.inl ?_
                show rangeSize l (s : Int) ((i : Int) - 1) ≤ cap
                rw [← htot]
                exact hlt
      · rw [splitStep_under cap _ total i f hover]
        apply ih rs s (i + 1) (total + f.size) hdrop1 (by omega)
        · rw [show ((i + 1 : Nat) : Int) - 1 = (i : Int) by push_cast; ring,
            rangeSize_last l (by exact_mod_cast hsi), htot, sizeAt, hfi]
        · exact Or.inl (by omega)
        · exact hrs

/-- C6: every range the code emits either fits the capacity threshold or is a
single record that alone exceeds it, and the threshold is the constant
`15 * 1024 ^ 3` bytes. -/
theorem split_capacity_bound :
    max_size = 15 * 1024 ^ 3 ∧
    ∀ (l : List GalleryFile) (r : Int × Int), r ∈ splitRanges l →
      rangeSize (sortGallery l) r.1 r.2 ≤ max_size ∨
      (r.1 = r.2 ∧ sizeAt (sortGallery l) r.1 > max_size) := by
  constructor
  · rfl
  · intro l r hr
    have h := splitLoop_inv max_size (sortGallery l) (sortGallery l) [] 0 0 0
      rfl (le_refl 0) (rangeSize_of_empty (sortGallery l) (by omega)).symm
      (Or.inl (Nat.zero_le _)) (by intro r h; cases h) r
    exact h hr

/-- Witness for C6: on two 16 GiB records the loop emits the single-record
pair `(0, 0)`, which exceeds the threshold on its own. -/
theorem split_capacity_bound_witness :
    ((0 : Int), (0 : Int)) ∈ splitRanges [capA, capB] ∧
    (rangeSize (sortGallery [capA, capB]) 0 0 ≤ max_size ∨
      ((0 : Int) = (0 : Int) ∧ sizeAt (sortGallery [capA, capB]) 0 > max_size)) :=
  ⟨by decide, split_capacity_bound.2 [capA, capB] (0, 0) (by decide)⟩

/-! Stability of the sort. -/

lemma filter_orderedInsert_ts (t : Int) (a : GalleryFile) :
    ∀ l : List GalleryFile,
      (List.orderedInsert dateLe a l).filter (fun f => f.date.ts == t) =
        if a.date.ts == t then a :: l.filter (fun f => f.date.ts == t)
        else l.filter (fun f => f.date.ts == t) := by
  intro l
  induction l with
  | nil =>
      by_cases ha : a.date.ts = t <;>
        simp [List.orderedInsert, List.filter_cons, beq_iff_eq, ha]
  | cons b l ih =>
      by_cases hab : dateLe a b
      · rw [List.orderedInsert_of_le dateLe l hab]
        by_cases ha : a.date.ts = t <;> simp [List.filter_cons, ha]
      · have hba : b.date.ts < a.date.ts := by
          unfold dateLe at hab
          omega
        have : List.orderedInsert dateLe a (b :: l) =
            b :: List.orderedInsert dateLe a l := by
          simp [List.orderedInsert, hab]
        rw [this]
        by_cases ha : a.date.ts = t
        · have hb : ¬ b.date.ts = t := by omega
          simp [List.filter_cons, ha, hb, ih]
        · by_cases hb : b.date.ts = t <;> simp [List.filter_cons, ha, hb, ih]

lemma filter_insertionSort_ts (t : Int) :
    ∀ l : List GalleryFile,
      (List.insertionSort dateLe l).filter (fun f => f.date.ts == t) =
        l.filter (fun f => f.date.ts == t) := by
  intro l
  induction l with
  | nil => rfl
  | cons a l ih =>
      rw [show List.insertionSort dateLe (a :: l) =
          List.orderedInsert dateLe a (List.insertionSort dateLe l) from rfl,
        filter_orderedInsert_ts t a, ih]
      by_cases ha : a.date.ts = t <;> simp [List.filter_cons, ha]

/-- C7: the record list is brought into ascending modification-time order by
a stable sort — the result is sorted under `dateLe`, is a permutation of the
input, and the records carrying any fixed timestamp appear in their original
input order. -/
theorem sort_stable_ascending :
    ∀ l : List GalleryFile,
      List.Sorted dateLe (sortGallery l) ∧
      (sortGallery l).Perm l ∧
      ∀ t : Int, (sortGallery l).filter (fun f => f.date.ts == t) =
        l.filter (fun f => f.date.ts == t) := by
  intro l
  exact ⟨List.sorted_insertionSort dateLe l, List.perm_insertionSort dateLe l,
    fun t => filter_insertionSort_ts t l⟩

/-- C8: the boundary part of a subfolder name is a pure function of the two
boundary records' modification dates, and for a first record modified
2024-01-01 and a last record modified 2024-01-10 it is
`"01.01.2024-10.01.2024"` with zero-padded day and month. -/
theorem range_name_pure_format :
    (∀ f g f2 g2 : GalleryFile, f.date = f2.date → g.date = g2.date →
        range_name f g = range_name f2 g2) ∧
    range_name nmFirst nmLast = "01.01.2024-10.01.2024" := by
  constructor
  · intro f g f2 g2 hf hg
    unfold range_name
    rw [hf, hg]
  · rfl

/-- Witness for C8: two records sharing the modification date 2024-01-01 but
differing in path and size produce the same name. -/
theorem range_name_pure_format_witness :
    range_name nmFirst nmLast = range_name nmAltFirst nmLast :=
  range_name_pure_format.1 nmFirst nmLast nmAltFirst nmLast rfl rfl

/-- C10: `split_gallery` sorts the caller's list in place: after the call the
list contents are in ascending modification-time order (a permutation of the
input), and for an input given in descending order the original order is not
preserved. -/
theorem split_gallery_sorts_in_place :
    (∀ l : List GalleryFile,
        List.Sorted dateLe (split_gallery l).1 ∧ ((split_gallery l).1).Perm l) ∧
    (split_gallery [mutB, mutA]).1 ≠ [mutB, mutA] := by
  constructor
  · intro l
    exact ⟨List.sorted_insertionSort dateLe l, List.perm_insertionSort dateLe l⟩
  · decide
